import Mathlib

/-!
# httpsign: canonical message, transport and middleware

A shallow embedding of `http.go` of `denpeshkov/httpsign` (package `httpsign`) together with
the `Verify` methods of its algorithm backends, and theorems about it.

Go strings and byte slices are modelled as lists of bytes (`GoString`), Go maps
`map[string][]string` as association lists, and side effects (calls to the signer, the
verifier, the base round tripper, the downstream handler, the error handler and
`Body.Close`) as an explicit list of events.
-/

namespace Httpsign

/-! ## Strings -/

/-- A byte. -/
abbrev Byte := Fin 256

/-- A Go `string` (equally a `[]byte`): a finite sequence of bytes. -/
abbrev GoString := List Byte

/-- The byte of an ASCII character. -/
def ch (c : Char) : Byte := Fin.ofNat c.toNat

/-- The bytes of an ASCII string literal. -/
def str (s : String) : GoString := s.toList.map ch

/-- Go's `<` on strings: byte-wise lexicographic comparison, a proper prefix being smaller. -/
def strLess : GoString → GoString → Bool
  | [], [] => false
  | [], _ :: _ => true
  | _ :: _, [] => false
  | a :: as, b :: bs => if a < b then true else if b < a then false else strLess as bs

/-- Go's `<=` on strings, as a relation: `b` is not smaller than `a`. -/
def strLE (a b : GoString) : Prop := strLess b a = false

instance strLE_decidable : DecidableRel strLE := fun a b =>
  inferInstanceAs (Decidable (strLess b a = false))

/-- `slices.Sort` on a `[]string`: the elements in ascending order of Go's `<`. -/
def slicesSort (xs : List GoString) : List GoString := List.insertionSort strLE xs

/-! ## `net/url`: `QueryEscape` and `url.Values` -/

/-- The `shouldEscape(c, encodeQueryComponent)` of Go's `net/url`: only the unreserved
characters (letters, digits, `-`, `_`, `.`, `~`) are kept. -/
def shouldEscape (c : Byte) : Bool :=
  if (ch 'a' ≤ c ∧ c ≤ ch 'z') ∨ (ch 'A' ≤ c ∧ c ≤ ch 'Z') ∨ (ch '0' ≤ c ∧ c ≤ ch '9') then false
  else if c = ch '-' ∨ c = ch '_' ∨ c = ch '.' ∨ c = ch '~' then false
  else true

/-- The table `upperhex = "0123456789ABCDEF"` of Go's `net/url`, indexed by a nibble. -/
def upperhex (n : Nat) : Byte :=
  if n < 10 then Fin.ofNat (48 + n) else Fin.ofNat (55 + n)

/-- The escaping of one byte by `url.QueryEscape`. -/
def escapeByte (c : Byte) : GoString :=
  if shouldEscape c then
    if c = ch ' ' then [ch '+']
    else [ch '%', upperhex (c.val / 16), upperhex (c.val % 16)]
  else [c]

/-- Go's `url.QueryEscape`. -/
def QueryEscape (s : GoString) : GoString := s.flatMap escapeByte

/-- Go's `url.Values`, a `map[string][]string`, as an association list; a map has each key
once (`Values.WF`). The nil map and the empty map are both `[]`. -/
abbrev Values := List (GoString × List GoString)

/-- The keys of the map, in the (arbitrary) order in which `range` yields them. -/
def Values.keys (q : Values) : List GoString := q.map Prod.fst

/-- A map holds each key once. -/
def Values.WF (q : Values) : Prop := q.keys.Nodup

instance Values.WF_decidable (q : Values) : Decidable q.WF :=
  inferInstanceAs (Decidable q.keys.Nodup)

/-- The map index expression `q[k]`: the value list of `k`, nil for an absent key. -/
def Values.get (q : Values) (k : GoString) : List GoString :=
  match q.find? (fun kv => decide (kv.1 = k)) with
  | some kv => kv.2
  | none => []

/-- The inner loop of `query.Encode`: appends `keyEscaped=QueryEscape(v)` for each value,
preceded by `&` when the buffer is not empty. -/
def encodeValues (keyEscaped : GoString) (values : List GoString) (buf : GoString) : GoString :=
  values.foldl
    (fun buf v =>
      let buf := if buf.length > 0 then buf ++ [ch '&'] else buf
      buf ++ keyEscaped ++ [ch '='] ++ QueryEscape v)
    buf

/-- The method `query.Encode` of `http.go`. -/
def Encode (q : Values) : GoString :=
  if q.length = 0 then []
  else
    let keys := slicesSort q.keys
    keys.foldl
      (fun buf k =>
        let values := slicesSort (q.get k)
        let keyEscaped := QueryEscape k
        encodeValues keyEscaped values buf)
      []

/-- One write of a `key=value` item into the buffer, as the loop body does it. -/
def writeItem (buf item : GoString) : GoString :=
  (if buf.length > 0 then buf ++ [ch '&'] else buf) ++ item

/-- Go's `strings.Join(items, sep)`. -/
def stringsJoin (sep : GoString) : List GoString → GoString
  | [] => []
  | [a] => a
  | a :: b :: rest => a ++ sep ++ stringsJoin sep (b :: rest)

/-- The `key=value` strings of the canonical query, in the order the specification gives:
keys ascending, and within a key its values ascending, both escaped. -/
def canonicalPairs (q : Values) : List GoString :=
  (slicesSort q.keys).flatMap fun k =>
    (slicesSort (q.get k)).map fun v => QueryEscape k ++ [ch '='] ++ QueryEscape v

/-- The canonical query string as the specification words it: the `&`-join of the
`key=value` strings. -/
def EncodeSpec (q : Values) : GoString := stringsJoin [ch '&'] (canonicalPairs q)

/-! ## `encoding/base64`: `RawURLEncoding` -/

/-- The URL-safe alphabet `encodeURL` of Go's `encoding/base64`: the character of a 6-bit
value. -/
def encodeURL (v : Fin 64) : Byte :=
  if v.val < 26 then Fin.ofNat (65 + v.val)
  else if v.val < 52 then Fin.ofNat (97 + (v.val - 26))
  else if v.val < 62 then Fin.ofNat (48 + (v.val - 52))
  else if v.val = 62 then ch '-'
  else ch '_'

/-- The `decodeMap` of `RawURLEncoding`: the 6-bit value of an alphabet character, `none`
(`0xff` in Go) for every other byte. -/
def decodeMap (c : Byte) : Option (Fin 64) :=
  if ch 'A' ≤ c ∧ c ≤ ch 'Z' then some (Fin.ofNat (c.val - 65))
  else if ch 'a' ≤ c ∧ c ≤ ch 'z' then some (Fin.ofNat (c.val - 97 + 26))
  else if ch '0' ≤ c ∧ c ≤ ch '9' then some (Fin.ofNat (c.val - 48 + 52))
  else if c = ch '-' then some 62
  else if c = ch '_' then some 63
  else none

/-- The 6-bit values that `Encoding.Encode` emits: four for each full group of three bytes
(`val = b0<<16 | b1<<8 | b2`), and two or three for a remainder of one or two bytes; no
padding is written (`NoPadding`). Shifts and ors of disjoint bit fields are written with
`*`, `+`, `/` and `%`. -/
def encodeSextets : GoString → List (Fin 64)
  | a :: b :: c :: rest =>
    let val := a.val * 65536 + b.val * 256 + c.val
    Fin.ofNat (val / 262144 % 64) :: Fin.ofNat (val / 4096 % 64) :: Fin.ofNat (val / 64 % 64)
      :: Fin.ofNat (val % 64) :: encodeSextets rest
  | [a, b] =>
    let val := a.val * 65536 + b.val * 256
    [Fin.ofNat (val / 262144 % 64), Fin.ofNat (val / 4096 % 64), Fin.ofNat (val / 64 % 64)]
  | [a] =>
    let val := a.val * 65536
    [Fin.ofNat (val / 262144 % 64), Fin.ofNat (val / 4096 % 64)]
  | [] => []

/-- Go's `base64.RawURLEncoding.EncodeToString`. -/
def base64Encode (src : GoString) : GoString := (encodeSextets src).map encodeURL

/-- The bytes that `Encoding.Decode` assembles from the 6-bit values of the input: three for
each quantum of four characters (`val = d0<<18 | d1<<12 | d2<<6 | d3`), one or two for a
final quantum of two or three characters; a final quantum of one character is an error.
The decoder is not strict: unused trailing bits are ignored. -/
def decodeQuanta : List (Fin 64) → Option GoString
  | a :: b :: c :: d :: rest =>
    let val := a.val * 262144 + b.val * 4096 + c.val * 64 + d.val
    match decodeQuanta rest with
    | some out => some (Fin.ofNat (val / 65536) :: Fin.ofNat (val / 256) :: Fin.ofNat val :: out)
    | none => none
  | [a, b, c] =>
    let val := a.val * 262144 + b.val * 4096 + c.val * 64
    some [Fin.ofNat (val / 65536), Fin.ofNat (val / 256)]
  | [a, b] =>
    let val := a.val * 262144 + b.val * 4096
    some [Fin.ofNat (val / 65536)]
  | [_] => none
  | [] => some []

/-- The 6-bit values of a sequence of characters, `none` when one of them is not in the
alphabet. -/
def decodeChars : GoString → Option (List (Fin 64))
  | [] => some []
  | c :: cs =>
    match decodeMap c, decodeChars cs with
    | some v, some vs => some (v :: vs)
    | _, _ => none

/-- Go's `base64.RawURLEncoding.DecodeString`, with `none` for a non-nil
`CorruptInputError`: carriage returns and line feeds are skipped, every other byte must be
in the alphabet, and the characters are decoded in quanta of four. -/
def base64Decode (s : GoString) : Option GoString :=
  match decodeChars (s.filter fun c => c ≠ ch '\r' ∧ c ≠ ch '\n') with
  | some vs => decodeQuanta vs
  | none => none

/-! ## Errors -/

/-- A Go `error` value (non-nil; a nil error is `none` of `Option GoError`). Values are
compared with `==` as comparable Go values. -/
inductive GoError where
  /-- The package variable `ErrVerification`. -/
  | ErrVerification : GoError
  /-- A `base64.CorruptInputError` (its offset is not kept). -/
  | CorruptInputError : GoError
  /-- Any other error created with `errors.New`, named by its text: errors of a signer, a
  verifier, the base round tripper, or a crypto library. -/
  | New (text : String) : GoError
  /-- The value of `fmt.Errorf(text + ": %w", err)`. -/
  | wrap (text : String) (err : GoError) : GoError
  /-- The value of `fmt.Errorf("%w: %w", a, b)`. -/
  | wrap2 (a b : GoError) : GoError
  deriving DecidableEq

/-- Go's `errors.Is(err, target)` for non-nil arguments: `err` or an error in its `Unwrap`
tree equals `target`. -/
def errorsIs : GoError → GoError → Bool
  | .wrap text err, target => decide (GoError.wrap text err = target) || errorsIs err target
  | .wrap2 a b, target =>
    decide (GoError.wrap2 a b = target) || (errorsIs a target || errorsIs b target)
  | .ErrVerification, target => decide (GoError.ErrVerification = target)
  | .CorruptInputError, target => decide (GoError.CorruptInputError = target)
  | .New text, target => decide (GoError.New text = target)

/-! ## `net/http`: headers, requests, responses -/

/-- Go's `http.Header`, a `map[string][]string` with canonical keys, as an association list. -/
abbrev Header := List (GoString × List GoString)

/-- The map index expression `h[key]`. -/
def Header.Values (h : Header) (key : GoString) : List GoString :=
  match h.find? (fun kv => decide (kv.1 = key)) with
  | some kv => kv.2
  | none => []

/-- Go's `Header.Get`: the first value of the key, the empty string if there is none. The
two keys this package uses are already in canonical form. -/
def Header.Get (h : Header) (key : GoString) : GoString :=
  match h.Values key with
  | [] => []
  | v :: _ => v

/-- Go's `Header.Add`: `h[key] = append(h[key], value)`. -/
def Header.Add : Header → GoString → GoString → Header
  | [], key, value => [(key, [value])]
  | (k, vs) :: rest, key, value =>
    if k = key then (k, vs ++ [value]) :: rest else (k, vs) :: Header.Add rest key value

/-- The parts of an `*http.Request` that the package reads: `Method`, `Host`, the result of
`URL.EscapedPath()`, the result of `URL.Query()`, `Header`, and `Body` (nil, or a body
named by a number). -/
structure Request where
  Method : GoString
  Host : GoString
  EscapedPath : GoString
  Query : Values
  Header : Header
  Body : Option Nat
  deriving DecidableEq

/-- Go's `Request.Clone`: a deep copy, which for a value is the value itself. -/
def Request.Clone (r : Request) : Request := r

/-- An `*http.Response`. -/
structure Response where
  StatusCode : Nat
  deriving DecidableEq

/-- What has been written to an `http.ResponseWriter`: the calls `http.Error(w, error, code)`
made on it, oldest first, each as `(error, code)`. -/
abbrev ResponseWriter := List (GoString × Nat)

/-- Go's `http.Error(w, error, code)`. -/
def httpError (w : ResponseWriter) (error : GoString) (code : Nat) : ResponseWriter :=
  w ++ [(error, code)]

def StatusUnauthorized : Nat := 401

def StatusInternalServerError : Nat := 500

/-- Go's `http.StatusText`, for the two codes this package uses. -/
def StatusText (code : Nat) : GoString :=
  if code = 401 then str "Unauthorized"
  else if code = 500 then str "Internal Server Error"
  else []

/-! ## `alg.go`: the capability interfaces -/

/-- The interface `Signer`: `Sign(message) ([]byte, error)`. -/
structure Signer where
  Sign : GoString → GoString × Option GoError

/-- The interface `Verifier`: `Verify(message, signature) (bool, error)`. -/
structure Verifier where
  Verify : GoString → GoString → Bool × Option GoError

/-! ## `http.go` -/

def signatureHeader : GoString := str "X-Signature"

def timestampHeader : GoString := str "X-Signature-Timestamp"

/-- The calls that the transport and the middleware make on their collaborators. -/
inductive Event where
  /-- The call `signer.Sign(message)`. -/
  | sign (message : GoString) : Event
  /-- The call `verifier.Verify(message, signature)`. -/
  | verify (message signature : GoString) : Event
  /-- The call `r.Body.Close()` on the body of the original request. -/
  | bodyClose (body : Nat) : Event
  /-- The call `t.Base.RoundTrip(r)`. -/
  | baseRoundTrip (r : Request) : Event
  /-- The call `h.ServeHTTP(w, r)` of the downstream handler. -/
  | serveHTTP (w : ResponseWriter) (r : Request) : Event
  /-- The call `m.ErrorHandler(w, r, err)`. -/
  | errorHandler (w : ResponseWriter) (r : Request) (err : GoError) : Event
  deriving DecidableEq

/-- The type `Transport`; `Base` is an `http.RoundTripper`. -/
structure Transport where
  Base : Request → Option Response × Option GoError
  signer : Signer

/-- The method `Transport.sign`; `now` is the clock's reading
`time.Now().UTC().Format(time.RFC3339)`. It returns the request with its headers added, the
error, and the calls made. -/
def Transport.sign (t : Transport) (r : Request) (now : GoString) :
    Request × Option GoError × List Event :=
  let method := r.Method
  let host := r.Host
  let path := r.EscapedPath
  let query := Encode r.Query
  let timestamp := now
  let path := if path = [] then str "/" else path
  let data := method ++ host ++ path ++ query ++ timestamp
  match t.signer.Sign data with
  | (_, some err) => (r, some err, [Event.sign data])
  | (sig, none) =>
    let esig := base64Encode sig
    let header := (r.Header.Add timestampHeader timestamp).Add signatureHeader esig
    ({ r with Header := header }, none, [Event.sign data])

/-- The method `Transport.RoundTrip`. The deferred function runs last and closes the
original body unless `bodyClosed` was set. -/
def Transport.RoundTrip (t : Transport) (r : Request) (now : GoString) :
    (Option Response × Option GoError) × List Event :=
  let deferred (bodyClosed : Bool) : List Event :=
    match r.Body with
    | some body => if !bodyClosed then [Event.bodyClose body] else []
    | none => []
  match t.sign r.Clone now with
  | (_, some err, calls) => ((none, some (GoError.wrap "sign request" err)), calls ++ deferred false)
  | (r2, none, calls) => (t.Base r2, calls ++ [Event.baseRoundTrip r2] ++ deferred true)

/-- The function `DefaultErrorHandler`. -/
def DefaultErrorHandler (w : ResponseWriter) (_r : Request) (err : Option GoError) :
    ResponseWriter :=
  match err with
  | none => w
  | some e =>
    if errorsIs e GoError.ErrVerification then
      httpError w (StatusText StatusUnauthorized) StatusUnauthorized
    else
      httpError w (StatusText StatusInternalServerError) StatusInternalServerError

/-- The type `Middleware`. -/
structure Middleware where
  ErrorHandler : ResponseWriter → Request → Option GoError → ResponseWriter
  verifier : Verifier

/-- The function `NewMiddleware`. -/
def NewMiddleware (verifier : Verifier) : Middleware :=
  { ErrorHandler := DefaultErrorHandler, verifier := verifier }

/-- An `http.Handler`: what `ServeHTTP(w, r)` leaves written on `w`. -/
abbrev HttpHandler := ResponseWriter → Request → ResponseWriter

/-- The method `Middleware.handler`: runs `h` and hands a non-nil error to the error
handler. It returns what is written on `w` and the calls made. -/
def Middleware.handler (m : Middleware)
    (h : ResponseWriter → Request → Option GoError × ResponseWriter × List Event)
    (w : ResponseWriter) (r : Request) : ResponseWriter × List Event :=
  match h w r with
  | (some err, w2, calls) => (m.ErrorHandler w2 r (some err), calls ++ [Event.errorHandler w2 r err])
  | (none, w2, calls) => (w2, calls)

/-- The method `Middleware.Handler`. -/
def Middleware.Handler (m : Middleware) (h : HttpHandler) (w : ResponseWriter) (r : Request) :
    ResponseWriter × List Event :=
  m.handler
    (fun w r =>
      let method := r.Method
      let host := r.Host
      let path := r.EscapedPath
      let query := Encode r.Query
      let timestamp := r.Header.Get timestampHeader
      let msg := method ++ host ++ path ++ query ++ timestamp
      match base64Decode (r.Header.Get signatureHeader) with
      | none => (some (GoError.wrap2 GoError.ErrVerification GoError.CorruptInputError), w, [])
      | some sig =>
        match m.verifier.Verify msg sig with
        | (_, some err) => (some err, w, [Event.verify msg sig])
        | (valid, none) =>
          if !valid then (some GoError.ErrVerification, w, [Event.verify msg sig])
          else (none, h w r, [Event.verify msg sig, Event.serveHTTP w r]))
    w r

/-- The number of calls of the downstream handler among the calls. -/
def servedCount (calls : List Event) : Nat :=
  calls.countP fun e => match e with
    | Event.serveHTTP _ _ => true
    | _ => false

/-- The number of calls of the error handler among the calls. -/
def errorHandlerCount (calls : List Event) : Nat :=
  calls.countP fun e => match e with
    | Event.errorHandler _ _ _ => true
    | _ => false

/-- The number of calls of `Verify` among the calls. -/
def verifyCount (calls : List Event) : Nat :=
  calls.countP fun e => match e with
    | Event.verify _ _ => true
    | _ => false

/-- The number of calls of the base round tripper among the calls. -/
def baseRoundTripCount (calls : List Event) : Nat :=
  calls.countP fun e => match e with
    | Event.baseRoundTrip _ => true
    | _ => false

/-- The number of calls of `Body.Close` among the calls. -/
def bodyCloseCount (calls : List Event) : Nat :=
  calls.countP fun e => match e with
    | Event.bodyClose _ => true
    | _ => false

/-- The value of the variable `data` in `Transport.sign`: the message handed to `Sign`. -/
def signData (r : Request) (now : GoString) : GoString :=
  r.Method ++ r.Host ++ (if r.EscapedPath = [] then str "/" else r.EscapedPath)
    ++ Encode r.Query ++ now

/-- The request as `Transport.sign` leaves it when `Sign` returned `sig`: the timestamp
header and the signature header added. -/
def signedRequest (r : Request) (now sig : GoString) : Request :=
  { r with
    Header := (r.Header.Add timestampHeader now).Add signatureHeader (base64Encode sig) }

/-- The value of the variable `msg` in `Middleware.Handler`: the message handed to
`Verify`. -/
def rebuiltMessage (r : Request) : GoString :=
  r.Method ++ r.Host ++ r.EscapedPath ++ Encode r.Query ++ r.Header.Get timestampHeader

/-! ## The stubs of `http_test.go` -/

/-- The test's `stubSigner`: the signature is the message. -/
def stubSigner : Signer := { Sign := fun message => (message, none) }

/-- The test's `stubVerifier`: the signature must equal the message. -/
def stubVerifier : Verifier :=
  { Verify := fun message signature => (decide (message = signature), none) }

/-! ## Sample values -/

/-- A request `GET example.com/r` with query `b -> [2, 1], a -> [3]`, no headers, and a
body. -/
def sampleRequest : Request :=
  { Method := str "GET", Host := str "example.com", EscapedPath := str "/r",
    Query := [(str "b", [str "2", str "1"]), (str "a", [str "3"])],
    Header := [], Body := some 7 }

/-- A clock reading. -/
def sampleNow : GoString := str "2024-01-01T00:00:00Z"

/-- A base round tripper that answers every request with status 200. -/
def sampleBase : Request → Option Response × Option GoError :=
  fun _ => (some { StatusCode := 200 }, none)

/-- A signer whose `Sign` always fails. -/
def failingSigner : Signer := { Sign := fun _ => ([], some (GoError.New "no key")) }

/-- A verifier whose `Verify` always fails with an error of its own. -/
def failingVerifier : Verifier := { Verify := fun _ _ => (false, some (GoError.New "no key")) }

/-- A downstream handler that writes a 200 response. -/
def sampleHandler : HttpHandler := fun w _ => w ++ [(str "ok", 200)]

/-- The sample request as a server sees it, with the given `X-Signature` value and the
sample clock reading as `X-Signature-Timestamp`. -/
def sampleIncoming (signature : GoString) : Request :=
  { sampleRequest with
    Header := [(timestampHeader, [sampleNow]), (signatureHeader, [signature])] }

/-- The `X-Signature` value of the stub signer for the sample request at the sample clock
reading. -/
def sampleValidSignature : GoString :=
  base64Encode (str "GETexample.com/ra=3&b=1&b=22024-01-01T00:00:00Z")

/-- An outgoing request `GET example.com` with the empty path, no query and no headers. -/
def sampleRootRequest : Request :=
  { Method := str "GET", Host := str "example.com", EscapedPath := [], Query := [],
    Header := [], Body := none }

/-- The request `sampleRootRequest` as signed by the stub signer at the sample clock
reading. -/
def sampleSigned : Request :=
  signedRequest sampleRootRequest sampleNow (signData sampleRootRequest sampleNow)

/-! ## The algorithm backends

The Go crypto libraries are parameters: hashing and keyed hashing as deterministic
functions, signature verification by its result. Keys are byte strings and a `crypto.Hash`
is its number. -/

/-- The `*rsa.PSSOptions` of `crypto/rsa`. -/
structure PSSOptions where
  SaltLength : Int
  Hash : Nat
  deriving DecidableEq

/-- The library functions that the backends call. -/
structure CryptoLib where
  /-- The digest `h := hash.New(); h.Write(msg); h.Sum(nil)`. -/
  hashSum : Nat → GoString → GoString
  /-- The keyed digest `h := hmac.New(hash.New, key); h.Write(msg); h.Sum(nil)`. -/
  hmacSum : Nat → GoString → GoString → GoString
  /-- The function `ecdsa.VerifyASN1(pub, hash, sig)`. -/
  ecdsaVerifyASN1 : GoString → GoString → GoString → Bool
  /-- The function `ed25519.Verify(publicKey, message, sig)`. -/
  ed25519Verify : GoString → GoString → GoString → Bool
  /-- The function `rsa.VerifyPKCS1v15(pub, hash, hashed, sig)`: nil, or an error. -/
  rsaVerifyPKCS1v15 : GoString → Nat → GoString → GoString → Option GoError
  /-- The function `rsa.VerifyPSS(pub, hash, digest, sig, opts)`: nil, or an error. -/
  rsaVerifyPSS : GoString → Nat → GoString → GoString → PSSOptions → Option GoError

/-- The type `hmac.HMAC`. -/
structure Hmac.HMAC where
  key : GoString
  hash : Nat

/-- The method `HMAC.digest` of `hmac/hmac.go`. -/
def Hmac.HMAC.digest (lib : CryptoLib) (h : Hmac.HMAC) (msg : GoString) : GoString :=
  lib.hmacSum h.hash h.key msg

/-- The method `HMAC.Sign` of `hmac/hmac.go`. -/
def Hmac.HMAC.Sign (lib : CryptoLib) (h : Hmac.HMAC) (message : GoString) :
    GoString × Option GoError :=
  (h.digest lib message, none)

/-- The method `HMAC.Verify` of `hmac/hmac.go`; `hmac.Equal` is equality of byte strings. -/
def Hmac.HMAC.Verify (lib : CryptoLib) (h : Hmac.HMAC) (message signature : GoString) :
    Bool × Option GoError :=
  (decide (signature = h.digest lib message), none)

/-- The type `ecdsa.Verifier`. -/
structure Ecdsa.Verifier where
  pub : GoString
  hash : Nat

/-- The method `Verifier.digest` of `ecdsa/ecdsa.go`. -/
def Ecdsa.Verifier.digest (lib : CryptoLib) (v : Ecdsa.Verifier) (msg : GoString) : GoString :=
  lib.hashSum v.hash msg

/-- The method `Verifier.Verify` of `ecdsa/ecdsa.go`. -/
def Ecdsa.Verifier.Verify (lib : CryptoLib) (v : Ecdsa.Verifier) (message signature : GoString) :
    Bool × Option GoError :=
  (lib.ecdsaVerifyASN1 v.pub (v.digest lib message) signature, none)

/-- The type `ed25519.Verifier`. -/
structure Ed25519.Verifier where
  pub : GoString

/-- The method `Verifier.Verify` of `ed25519/ed25519.go`. -/
def Ed25519.Verifier.Verify (lib : CryptoLib) (v : Ed25519.Verifier)
    (message signature : GoString) : Bool × Option GoError :=
  (lib.ed25519Verify v.pub message signature, none)

/-- The type `rsa.PKCSVerifier`. -/
structure Rsa.PKCSVerifier where
  pub : GoString
  hash : Nat

/-- The method `PKCSVerifier.digest` of `rsa/pkcs.go`. -/
def Rsa.PKCSVerifier.digest (lib : CryptoLib) (v : Rsa.PKCSVerifier) (msg : GoString) :
    GoString :=
  lib.hashSum v.hash msg

/-- The method `PKCSVerifier.Verify` of `rsa/pkcs.go`. -/
def Rsa.PKCSVerifier.Verify (lib : CryptoLib) (v : Rsa.PKCSVerifier)
    (message signature : GoString) : Bool × Option GoError :=
  match lib.rsaVerifyPKCS1v15 v.pub v.hash (v.digest lib message) signature with
  | some err => (false, some err)
  | none => (true, none)

/-- The type `rsa.PSSVerifier`. -/
structure Rsa.PSSVerifier where
  pub : GoString
  opts : PSSOptions

/-- The method `PSSVerifier.digest` of `rsa/pss.go`. -/
def Rsa.PSSVerifier.digest (lib : CryptoLib) (v : Rsa.PSSVerifier) (msg : GoString) :
    GoString :=
  lib.hashSum v.opts.Hash msg

/-- The method `PSSVerifier.Verify` of `rsa/pss.go`. -/
def Rsa.PSSVerifier.Verify (lib : CryptoLib) (v : Rsa.PSSVerifier)
    (message signature : GoString) : Bool × Option GoError :=
  match lib.rsaVerifyPSS v.pub v.opts.Hash (v.digest lib message) signature v.opts with
  | some err => (false, some err)
  | none => (true, none)

/-- The error `rsa.ErrVerification` of Go's `crypto/rsa`, a value other than this package's
`ErrVerification`. -/
def rsaErrVerification : GoError := GoError.New "crypto/rsa: verification error"

/-- A library whose verification rejects every signature: the keyed digest differs from
every signature offered here, the two boolean verifications return false, and the two RSA
verifications return `rsa.ErrVerification`. -/
def rejectingLib : CryptoLib :=
  { hashSum := fun _ msg => msg
    hmacSum := fun _ _ _ => str "digest"
    ecdsaVerifyASN1 := fun _ _ _ => false
    ed25519Verify := fun _ _ _ => false
    rsaVerifyPKCS1v15 := fun _ _ _ _ => some rsaErrVerification
    rsaVerifyPSS := fun _ _ _ _ _ => some rsaErrVerification }

/-- The variable `ErrHashUnavailable` of `hmac/hmac.go`. -/
def Hmac.ErrHashUnavailable : GoError :=
  GoError.New "hmac: requested hash function is unavailable"

/-- The function `New` of `hmac/hmac.go`; `available` is the method `Hash.Available` of Go's
`crypto`. -/
def Hmac.New (available : Nat → Bool) (key : GoString) (hash : Nat) :
    Option Hmac.HMAC × Option GoError :=
  if !available hash then (none, some Hmac.ErrHashUnavailable)
  else (some { key := key, hash := hash }, none)

/-- A library whose keyed digest is the key followed by the message, and in which every
verification fails. -/
def sampleLib : CryptoLib :=
  { rejectingLib with hmacSum := fun _ key msg => key ++ msg }

/-- The sample request carrying an `X-Signature` value already. -/
def sampleResigned : Request :=
  { sampleRequest with Header := [(signatureHeader, [str "old"])] }

/-! ## Facts about the string order and `slices.Sort` -/

theorem strLess_irrefl (a : GoString) : strLess a a = false := by
  induction a with
  | nil => rfl
  | cons x xs ih => simp [strLess, ih]

theorem strLess_asymm : ∀ a b : GoString, strLess a b = true → strLess b a = false
  | [], [] => by simp [strLess]
  | [], _ :: _ => by simp [strLess]
  | _ :: _, [] => by simp [strLess]
  | x :: xs, y :: ys => by
    intro h
    simp only [strLess] at h ⊢
    by_cases hxy : x < y
    · simp [hxy, lt_asymm hxy]
    · by_cases hyx : y < x
      · simp [hxy, hyx] at h
      · simp only [hxy, hyx, if_false] at h ⊢
        exact strLess_asymm xs ys h

theorem strLE_antisymm_aux : ∀ a b : GoString, strLess a b = false → strLess b a = false → a = b
  | [], [] => by simp
  | [], _ :: _ => by simp [strLess]
  | _ :: _, [] => by simp [strLess]
  | x :: xs, y :: ys => by
    intro h1 h2
    simp only [strLess] at h1 h2
    by_cases hxy : x < y
    · simp [hxy] at h1
    · by_cases hyx : y < x
      · simp [hyx] at h2
      · simp only [hxy, hyx, if_false] at h1 h2
        have hx : x = y := le_antisymm (not_lt.mp hyx) (not_lt.mp hxy)
        rw [hx, strLE_antisymm_aux xs ys h1 h2]

theorem strLess_trans : ∀ a b c : GoString,
    strLess a b = true → strLess b c = true → strLess a c = true
  | [], b, [] => by
    intro h1 h2
    cases b <;> simp [strLess] at h1 h2
  | [], _, _ :: _ => by simp [strLess]
  | _ :: _, [], _ => by simp [strLess]
  | _ :: _, _ :: _, [] => by simp [strLess]
  | x :: xs, y :: ys, z :: zs => by
    intro h1 h2
    simp only [strLess] at h1 h2 ⊢
    by_cases hxy : x < y
    · by_cases hyz : y < z
      · simp [lt_trans hxy hyz]
      · by_cases hzy : z < y
        · simp [hyz, hzy] at h2
        · have hy : y = z := le_antisymm (not_lt.mp hzy) (not_lt.mp hyz)
          subst hy
          simp [hxy]
    · by_cases hyx : y < x
      · simp [hxy, hyx] at h1
      · have hx : x = y := le_antisymm (not_lt.mp hyx) (not_lt.mp hxy)
        subst hx
        simp only [hxy, if_false] at h1
        by_cases hxz : x < z
        · simp [hxz]
        · by_cases hzx : z < x
          · simp [hxz, hzx] at h2
          · simp only [hxz, hzx, if_false] at h2 ⊢
            exact strLess_trans xs ys zs h1 h2

instance strLE_total : IsTotal GoString strLE where
  total a b := by
    unfold strLE
    cases h : strLess b a with
    | false => exact Or.inl rfl
    | true => exact Or.inr (strLess_asymm b a h)

instance strLE_trans : IsTrans GoString strLE where
  trans a b c hab hbc := by
    unfold strLE at *
    cases h : strLess c a with
    | false => rfl
    | true =>
      cases hcb : strLess c b with
      | true => rw [hcb] at hbc; cases hbc
      | false =>
        -- `c < a`, `¬ c < b`, `¬ b < a`: then `b ≤ c < a`, so `b < a` unless `b = c`.
        cases hbc2 : strLess b c with
        | true => rw [strLess_trans b c a hbc2 h] at hab; cases hab
        | false =>
          have : c = b := strLE_antisymm_aux c b hcb hbc2
          subst this
          rw [h] at hab; cases hab

instance strLE_antisymm : IsAntisymm GoString strLE where
  antisymm a b hab hba := strLE_antisymm_aux a b hba hab

theorem slicesSort_sorted (xs : List GoString) : List.Sorted strLE (slicesSort xs) :=
  List.sorted_insertionSort strLE xs

theorem slicesSort_perm (xs : List GoString) : (slicesSort xs).Perm xs :=
  List.perm_insertionSort strLE xs

/-- Sorting forgets the order of its input. -/
theorem slicesSort_congr {xs ys : List GoString} (h : xs.Perm ys) :
    slicesSort xs = slicesSort ys :=
  List.eq_of_perm_of_sorted
    (((slicesSort_perm xs).trans h).trans (slicesSort_perm ys).symm)
    (slicesSort_sorted xs) (slicesSort_sorted ys)

/-! ## The buffer loop of `query.Encode` is a join -/

theorem encodeValues_eq (ke : GoString) (vs : List GoString) (buf : GoString) :
    encodeValues ke vs buf
      = (vs.map fun v => ke ++ [ch '='] ++ QueryEscape v).foldl writeItem buf := by
  unfold encodeValues
  induction vs generalizing buf with
  | nil => rfl
  | cons v vs ih =>
    simp only [List.foldl_cons, List.map_cons]
    rw [ih]
    simp [writeItem, List.append_assoc]

theorem foldl_writeItem_flatMap {α : Type} (f : α → List GoString) (xs : List α)
    (buf : GoString) :
    xs.foldl (fun b x => (f x).foldl writeItem b) buf = (xs.flatMap f).foldl writeItem buf := by
  induction xs generalizing buf with
  | nil => rfl
  | cons x xs ih => simp [List.flatMap_cons, List.foldl_append, ih]

theorem foldl_writeItem_nonempty (items : List GoString) (buf : GoString) (hb : buf ≠ []) :
    items.foldl writeItem buf = buf ++ items.flatMap fun it => ch '&' :: it := by
  induction items generalizing buf with
  | nil => simp
  | cons it items ih =>
    have hpos : buf.length > 0 := List.length_pos.mpr hb
    have hne : writeItem buf it ≠ [] := by
      simp [writeItem, hpos, hb]
    rw [List.foldl_cons, ih _ hne]
    simp [writeItem, hpos, List.flatMap_cons]

theorem stringsJoin_cons (sep a : GoString) (rest : List GoString) :
    stringsJoin sep (a :: rest) = a ++ rest.flatMap fun it => sep ++ it := by
  induction rest generalizing a with
  | nil => simp [stringsJoin]
  | cons b rest ih => simp [stringsJoin, ih, List.flatMap_cons]

theorem foldl_writeItem_nil (items : List GoString) (h : ∀ it ∈ items, it ≠ []) :
    items.foldl writeItem [] = stringsJoin [ch '&'] items := by
  cases items with
  | nil => rfl
  | cons a rest =>
    have ha : a ≠ [] := h a (List.mem_cons_self _ _)
    have h1 : writeItem [] a = a := by simp [writeItem]
    rw [List.foldl_cons, h1, foldl_writeItem_nonempty rest a ha, stringsJoin_cons]
    simp

theorem canonicalPairs_ne_nil (q : Values) : ∀ it ∈ canonicalPairs q, it ≠ [] := by
  intro it hit
  simp only [canonicalPairs, List.mem_flatMap, List.mem_map] at hit
  obtain ⟨k, _, v, _, rfl⟩ := hit
  simp

theorem Encode_eq_foldl (q : Values) :
    Encode q = (canonicalPairs q).foldl writeItem [] := by
  unfold Encode
  split
  · next h =>
    have hq : q = [] := List.length_eq_zero.mp h
    subst hq
    rfl
  · simp only [encodeValues_eq]
    rw [foldl_writeItem_flatMap]
    rfl

/-- The code and the specification's wording of the canonical query agree. -/
theorem Encode_eq_EncodeSpec (q : Values) : Encode q = EncodeSpec q := by
  rw [Encode_eq_foldl, foldl_writeItem_nil _ (canonicalPairs_ne_nil q)]
  rfl

/-! ## No `&` at either end -/

set_option maxRecDepth 100000 in
theorem amp_not_mem_escapeByte : ∀ c : Byte, ch '&' ∉ escapeByte c := by decide

theorem amp_not_mem_QueryEscape (s : GoString) : ch '&' ∉ QueryEscape s := by
  intro h
  simp only [QueryEscape, List.mem_flatMap] at h
  obtain ⟨c, _, hc⟩ := h
  exact amp_not_mem_escapeByte c hc

theorem amp_not_mem_canonicalPairs (q : Values) : ∀ it ∈ canonicalPairs q, ch '&' ∉ it := by
  intro it hit h
  simp only [canonicalPairs, List.mem_flatMap, List.mem_map] at hit
  obtain ⟨k, _, v, _, rfl⟩ := hit
  simp only [List.mem_append, List.mem_singleton] at h
  rcases h with (h | h) | h
  · exact amp_not_mem_QueryEscape k h
  · revert h; decide
  · exact amp_not_mem_QueryEscape v h

theorem stringsJoin_ne_nil (sep a : GoString) (rest : List GoString) (ha : a ≠ []) :
    stringsJoin sep (a :: rest) ≠ [] := by
  rw [stringsJoin_cons]
  simp [ha]

theorem head_stringsJoin (sep : GoString) (x : Byte) (items : List GoString)
    (h : ∀ it ∈ items, it ≠ [] ∧ x ∉ it) : (stringsJoin sep items).head? ≠ some x := by
  cases items with
  | nil => simp [stringsJoin]
  | cons a rest =>
    obtain ⟨ha, hx⟩ := h a (List.mem_cons_self _ _)
    rw [stringsJoin_cons, List.head?_append_of_ne_nil _ ha]
    intro hh
    exact hx (List.mem_of_mem_head? hh)

theorem getLast_stringsJoin (sep : GoString) (x : Byte) :
    ∀ items : List GoString, (∀ it ∈ items, it ≠ [] ∧ x ∉ it) →
      (stringsJoin sep items).getLast? ≠ some x
  | [], _ => by simp [stringsJoin]
  | [a], h => by
    intro hh
    exact (h a (List.mem_cons_self _ _)).2 (List.mem_of_getLast?_eq_some hh)
  | a :: b :: rest, h => by
    have hb : b ≠ [] := (h b (by simp)).1
    have ih := getLast_stringsJoin sep x (b :: rest) (fun it hit => h it (List.mem_cons_of_mem _ hit))
    have hne := stringsJoin_ne_nil sep b rest hb
    simp only [stringsJoin]
    rw [List.getLast?_append_of_ne_nil _ hne]
    exact ih

/-! ## Order independence -/

theorem keys_perm_of_same_set {q1 q2 : Values} (h1 : q1.WF) (h2 : q2.WF)
    (hk : ∀ k, k ∈ q1.keys ↔ k ∈ q2.keys) : q1.keys.Perm q2.keys :=
  (List.perm_ext_iff_of_nodup h1 h2).mpr hk

theorem canonicalPairs_congr {q1 q2 : Values} (h1 : q1.WF) (h2 : q2.WF)
    (hk : ∀ k, k ∈ q1.keys ↔ k ∈ q2.keys) (hv : ∀ k, (q2.get k).Perm (q1.get k)) :
    canonicalPairs q1 = canonicalPairs q2 := by
  unfold canonicalPairs
  rw [slicesSort_congr (keys_perm_of_same_set h1 h2 hk)]
  congr 1
  funext k
  rw [slicesSort_congr (hv k)]

/-! ## Theorems on the canonical query -/

/-- C1: `query.Encode` is independent of parameter order. Two maps with the same set of keys,
in which every key's value list in the second is a permutation of its value list in the
first, encode to the same string. -/
theorem Encode_order_independent (q1 q2 : Values) (h1 : q1.WF) (h2 : q2.WF)
    (hk : ∀ k, k ∈ q1.keys ↔ k ∈ q2.keys) (hv : ∀ k, (q2.get k).Perm (q1.get k)) :
    Encode q1 = Encode q2 := by
  rw [Encode_eq_foldl, Encode_eq_foldl, canonicalPairs_congr h1 h2 hk hv]

/-- Witness of C1 on the map `b -> [2, 1], a -> [3]` and a reordering of it. -/
theorem Encode_order_independent_witness :
    Values.WF [(str "b", [str "2", str "1"]), (str "a", [str "3"])]
    ∧ Values.WF [(str "a", [str "3"]), (str "b", [str "1", str "2"])]
    ∧ Encode [(str "b", [str "2", str "1"]), (str "a", [str "3"])]
        = Encode [(str "a", [str "3"]), (str "b", [str "1", str "2"])] :=
  ⟨by decide, by decide,
    Encode_order_independent
      [(str "b", [str "2", str "1"]), (str "a", [str "3"])]
      [(str "a", [str "3"]), (str "b", [str "1", str "2"])]
      (by decide) (by decide)
      (by intro k; simp only [Values.keys, List.map, List.mem_cons]; tauto)
      (by
        intro k
        by_cases ha : str "a" = k
        · subst ha; decide
        · by_cases hb : str "b" = k
          · subst hb; decide
          · simp [Values.get, List.find?, ha, hb])⟩

/-- C9: `query.Encode` equals the reference definition (the `&`-join of the escaped
`key=value` strings, keys ascending and values ascending within a key, where the sort
returns the ascending arrangement of its input); it is empty for the empty map, a key with
no values contributes nothing, the result neither starts nor ends
with `&`, and `b -> [2, 1], a -> [3]` gives `a=3&b=1&b=2`. -/
theorem Encode_reference :
    (∀ q : Values, Encode q = EncodeSpec q)
    ∧ Encode [] = []
    ∧ (∀ xs : List GoString, List.Sorted strLE (slicesSort xs) ∧ (slicesSort xs).Perm xs)
    ∧ (∀ k : GoString, Encode [(k, [])] = [])
    ∧ (∀ q : Values, (Encode q).head? ≠ some (ch '&') ∧ (Encode q).getLast? ≠ some (ch '&'))
    ∧ Encode [(str "b", [str "2", str "1"]), (str "a", [str "3"])] = str "a=3&b=1&b=2" := by
  refine ⟨Encode_eq_EncodeSpec, rfl, fun xs => ⟨slicesSort_sorted xs, slicesSort_perm xs⟩,
    ?_, ?_, by decide⟩
  · intro k
    simp [Encode, slicesSort, Values.keys, Values.get, List.find?, encodeValues]
  intro q
  have h : ∀ it ∈ canonicalPairs q, it ≠ [] ∧ ch '&' ∉ it := fun it hit =>
    ⟨canonicalPairs_ne_nil q it hit, amp_not_mem_canonicalPairs q it hit⟩
  rw [Encode_eq_EncodeSpec]
  exact ⟨head_stringsJoin _ _ _ h, getLast_stringsJoin _ _ _ h⟩

/-! ## Base64 round trip -/

theorem decodeMap_encodeURL : ∀ v : Fin 64, decodeMap (encodeURL v) = some v := by decide

theorem encodeURL_not_newline :
    ∀ v : Fin 64, encodeURL v ≠ ch '\r' ∧ encodeURL v ≠ ch '\n' := by decide

theorem filter_base64Encode (src : GoString) :
    (base64Encode src).filter (fun c => c ≠ ch '\r' ∧ c ≠ ch '\n') = base64Encode src := by
  rw [List.filter_eq_self]
  intro c hc
  simp only [base64Encode, List.mem_map] at hc
  obtain ⟨v, _, rfl⟩ := hc
  simpa using encodeURL_not_newline v

theorem decodeChars_map (vs : List (Fin 64)) :
    decodeChars (vs.map encodeURL) = some vs := by
  induction vs with
  | nil => rfl
  | cons v vs ih => simp [decodeChars, decodeMap_encodeURL, ih]

theorem decodeQuanta_encodeSextets : ∀ src : GoString, decodeQuanta (encodeSextets src) = some src
  | [] => rfl
  | [a] => by
    simp only [encodeSextets, decodeQuanta, Fin.ofNat, Option.some.injEq, List.cons.injEq,
      and_true]
    apply Fin.ext
    simp only
    omega
  | [a, b] => by
    simp only [encodeSextets, decodeQuanta, Fin.ofNat, Option.some.injEq, List.cons.injEq,
      and_true]
    refine ⟨?_, ?_⟩ <;> apply Fin.ext <;> simp only <;> omega
  | a :: b :: c :: rest => by
    simp only [encodeSextets, decodeQuanta, decodeQuanta_encodeSextets rest, Fin.ofNat,
      Option.some.injEq, List.cons.injEq, and_true]
    refine ⟨?_, ?_, ?_⟩ <;> apply Fin.ext <;> simp only <;> omega

/-- Decoding what `EncodeToString` produced gives back the bytes. -/
theorem base64Decode_base64Encode (src : GoString) :
    base64Decode (base64Encode src) = some src := by
  unfold base64Decode
  rw [filter_base64Encode]
  simp only [base64Encode, decodeChars_map]
  exact decodeQuanta_encodeSextets src

/-! ## Errors and headers -/

theorem errorsIs_refl (e : GoError) : errorsIs e e = true := by
  cases e <;> simp [errorsIs]

theorem Header.Values_Add_same (h : Header) (key value : GoString) :
    (h.Add key value).Values key = h.Values key ++ [value] := by
  induction h with
  | nil => simp [Header.Add, Header.Values, List.find?]
  | cons kv rest ih =>
    obtain ⟨k, vs⟩ := kv
    unfold Header.Add
    by_cases hk : k = key
    · simp [hk, Header.Values, List.find?]
    · have ih2 := ih
      simp only [Header.Values] at ih2 ⊢
      simp [hk, List.find?, ih2]

theorem Header.Values_Add_other (h : Header) (key value other : GoString) (hne : other ≠ key) :
    (h.Add key value).Values other = h.Values other := by
  induction h with
  | nil =>
    have : ¬ key = other := fun e => hne e.symm
    simp [Header.Add, Header.Values, List.find?, this]
  | cons kv rest ih =>
    obtain ⟨k, vs⟩ := kv
    unfold Header.Add
    by_cases hk : k = key
    · have : ¬ key = other := fun e => hne e.symm
      subst hk
      simp [Header.Values, List.find?, this]
    · have ih2 := ih
      simp only [Header.Values] at ih2 ⊢
      by_cases hko : k = other
      · subst hko
        simp [hne, List.find?]
      · simp [hk, hko, List.find?, ih2]

/-- A header that was absent reads back, after `Add`, as the added value. -/
theorem Header.Get_Add_same (h : Header) (key value : GoString) (habs : h.Values key = []) :
    (h.Add key value).Get key = value := by
  simp [Header.Get, Header.Values_Add_same, habs]

theorem Header.Get_Add_other (h : Header) (key value other : GoString) (hne : other ≠ key) :
    (h.Add key value).Get other = h.Get other := by
  simp [Header.Get, Header.Values_Add_other h key value other hne]

/-! ## The transport -/

/-- The message of `Transport.sign`: method, host, path (`/` for the empty path), canonical
query and timestamp, with no separators. -/
theorem sign_calls (t : Transport) (r : Request) (now : GoString) :
    (t.sign r now).2.2
      = [Event.sign (r.Method ++ r.Host ++ (if r.EscapedPath = [] then str "/" else r.EscapedPath)
          ++ Encode r.Query ++ now)] := by
  unfold Transport.sign
  simp only
  split <;> rfl

/-- C2: the byte string that `Transport.sign` passes to `Signer.Sign` is method, host, path
(`/` when the escaped path is empty), `query.Encode()` and timestamp concatenated with no
separators, and `Sign` is called once; for `GET`, `example.com`, `/r`,
`b -> [2, 1], a -> [3]` and `2024-01-01T00:00:00Z` it is the literal
`GETexample.com/ra=3&b=1&b=22024-01-01T00:00:00Z`. -/
theorem sign_message :
    (∀ (t : Transport) (r : Request) (now : GoString),
      (t.sign r now).2.2
        = [Event.sign (r.Method ++ r.Host
            ++ (if r.EscapedPath = [] then str "/" else r.EscapedPath)
            ++ Encode r.Query ++ now)])
    ∧ (∀ (t : Transport) (header : Header) (body : Option Nat),
      (t.sign
          { Method := str "GET", Host := str "example.com", EscapedPath := str "/r",
            Query := [(str "b", [str "2", str "1"]), (str "a", [str "3"])],
            Header := header, Body := body }
          (str "2024-01-01T00:00:00Z")).2.2
        = [Event.sign (str "GETexample.com/ra=3&b=1&b=22024-01-01T00:00:00Z")]) := by
  refine ⟨sign_calls, ?_⟩
  intro t header body
  rw [sign_calls]
  simp only
  decide

theorem sign_of_error (t : Transport) (r : Request) (now sig : GoString) (e : GoError)
    (h : t.signer.Sign (signData r now) = (sig, some e)) :
    t.sign r now = (r, some e, [Event.sign (signData r now)]) := by
  unfold Transport.sign
  simp only
  unfold signData at h ⊢
  rw [h]

theorem sign_of_ok (t : Transport) (r : Request) (now sig : GoString)
    (h : t.signer.Sign (signData r now) = (sig, none)) :
    t.sign r now = (signedRequest r now sig, none, [Event.sign (signData r now)]) := by
  unfold Transport.sign
  simp only
  unfold signData at h ⊢
  rw [h]
  rfl

theorem RoundTrip_of_error (t : Transport) (r : Request) (now sig : GoString) (e : GoError)
    (h : t.signer.Sign (signData r now) = (sig, some e)) :
    t.RoundTrip r now
      = ((none, some (GoError.wrap "sign request" e)),
          Event.sign (signData r now) ::
            (match r.Body with
              | some body => [Event.bodyClose body]
              | none => [])) := by
  unfold Transport.RoundTrip
  simp only [Request.Clone, sign_of_error t r now sig e h]
  cases r.Body <;> rfl

theorem RoundTrip_of_ok (t : Transport) (r : Request) (now sig : GoString)
    (h : t.signer.Sign (signData r now) = (sig, none)) :
    t.RoundTrip r now
      = (t.Base (signedRequest r now sig),
          [Event.sign (signData r now), Event.baseRoundTrip (signedRequest r now sig)]) := by
  unfold Transport.RoundTrip
  simp only [Request.Clone, sign_of_ok t r now sig h]
  cases r.Body <;> rfl

/-- C10: when `Sign` returns an error `e`, `Transport.RoundTrip` does not call the base round
tripper, returns a nil response and an error wrapping `e`, and closes the original body
once if there is one; when `Sign` succeeds, it calls the base round tripper once with the
signed request, returns its result unchanged, and does not close the body itself. -/
theorem RoundTrip_sign_outcome (t : Transport) (r : Request) (now : GoString) :
    (∀ (sig : GoString) (e : GoError), t.signer.Sign (signData r now) = (sig, some e) →
      (t.RoundTrip r now).1 = (none, some (GoError.wrap "sign request" e))
      ∧ errorsIs (GoError.wrap "sign request" e) e = true
      ∧ baseRoundTripCount (t.RoundTrip r now).2 = 0
      ∧ bodyCloseCount (t.RoundTrip r now).2 = (if r.Body = none then 0 else 1)
      ∧ (∀ body, r.Body = some body → Event.bodyClose body ∈ (t.RoundTrip r now).2))
    ∧ (∀ sig : GoString, t.signer.Sign (signData r now) = (sig, none) →
      (t.RoundTrip r now).1 = t.Base (signedRequest r now sig)
      ∧ (t.RoundTrip r now).2
          = [Event.sign (signData r now), Event.baseRoundTrip (signedRequest r now sig)]
      ∧ baseRoundTripCount (t.RoundTrip r now).2 = 1
      ∧ bodyCloseCount (t.RoundTrip r now).2 = 0) := by
  constructor
  · intro sig e h
    rw [RoundTrip_of_error t r now sig e h]
    refine ⟨rfl, ?_, ?_, ?_, ?_⟩
    · simp [errorsIs, errorsIs_refl]
    · cases r.Body <;> simp [baseRoundTripCount, List.countP_cons]
    · cases r.Body <;> simp [bodyCloseCount, List.countP_cons]
    · intro body hb
      simp [hb]
  · intro sig h
    rw [RoundTrip_of_ok t r now sig h]
    refine ⟨rfl, rfl, ?_, ?_⟩
    · simp [baseRoundTripCount, List.countP_cons]
    · simp [bodyCloseCount, List.countP_cons]

/-- Witness of C10: a signer that always fails, on a request with a body; and the stub signer. -/
theorem RoundTrip_sign_outcome_witness :
    (failingSigner.Sign (signData sampleRequest sampleNow) = ([], some (GoError.New "no key"))
      ∧ (Transport.RoundTrip { Base := sampleBase, signer := failingSigner }
            sampleRequest sampleNow).1
          = (none, some (GoError.wrap "sign request" (GoError.New "no key")))
      ∧ baseRoundTripCount (Transport.RoundTrip { Base := sampleBase, signer := failingSigner }
            sampleRequest sampleNow).2 = 0
      ∧ bodyCloseCount (Transport.RoundTrip { Base := sampleBase, signer := failingSigner }
            sampleRequest sampleNow).2 = 1)
    ∧ (stubSigner.Sign (signData sampleRequest sampleNow)
          = (signData sampleRequest sampleNow, none)
      ∧ baseRoundTripCount (Transport.RoundTrip { Base := sampleBase, signer := stubSigner }
            sampleRequest sampleNow).2 = 1
      ∧ bodyCloseCount (Transport.RoundTrip { Base := sampleBase, signer := stubSigner }
            sampleRequest sampleNow).2 = 0) :=
  have h1 := (RoundTrip_sign_outcome { Base := sampleBase, signer := failingSigner }
    sampleRequest sampleNow).1 [] (GoError.New "no key") rfl
  have h2 := (RoundTrip_sign_outcome { Base := sampleBase, signer := stubSigner }
    sampleRequest sampleNow).2 (signData sampleRequest sampleNow) rfl
  ⟨⟨rfl, h1.1, h1.2.2.1, h1.2.2.2.1.trans (by decide)⟩, ⟨rfl, h2.2.2.1, h2.2.2.2⟩⟩

/-! ## The error policy -/

theorem DefaultErrorHandler_of_is (w : ResponseWriter) (r : Request) (e : GoError)
    (h : errorsIs e GoError.ErrVerification = true) :
    DefaultErrorHandler w r (some e) = w ++ [(str "Unauthorized", 401)] := by
  simp only [DefaultErrorHandler, h, if_true]
  rfl

theorem DefaultErrorHandler_of_not_is (w : ResponseWriter) (r : Request) (e : GoError)
    (h : errorsIs e GoError.ErrVerification = false) :
    DefaultErrorHandler w r (some e) = w ++ [(str "Internal Server Error", 500)] := by
  simp only [DefaultErrorHandler, h]
  rfl

/-- C6: `DefaultErrorHandler` answers a non-nil error with 401 and the status text
`Unauthorized` when `errors.Is(err, ErrVerification)` holds, which includes
`ErrVerification` wrapped together with another error, and with 500 and
`Internal Server Error` otherwise; for a nil error it writes nothing. -/
theorem DefaultErrorHandler_classification (w : ResponseWriter) (r : Request) :
    (∀ e : GoError, errorsIs e GoError.ErrVerification = true →
      DefaultErrorHandler w r (some e) = w ++ [(str "Unauthorized", 401)])
    ∧ (∀ other : GoError,
      DefaultErrorHandler w r (some (GoError.wrap2 GoError.ErrVerification other))
        = w ++ [(str "Unauthorized", 401)])
    ∧ (∀ e : GoError, errorsIs e GoError.ErrVerification = false →
      DefaultErrorHandler w r (some e) = w ++ [(str "Internal Server Error", 500)])
    ∧ DefaultErrorHandler w r none = w := by
  refine ⟨DefaultErrorHandler_of_is w r, ?_, DefaultErrorHandler_of_not_is w r, rfl⟩
  intro other
  exact DefaultErrorHandler_of_is w r _ (by simp [errorsIs])

/-- Witness of C6: `ErrVerification` itself gets 401, an unrelated error gets 500. -/
theorem DefaultErrorHandler_classification_witness :
    (errorsIs GoError.ErrVerification GoError.ErrVerification = true
      ∧ DefaultErrorHandler [] sampleRequest (some GoError.ErrVerification)
          = [(str "Unauthorized", 401)])
    ∧ (errorsIs (GoError.New "no key") GoError.ErrVerification = false
      ∧ DefaultErrorHandler [] sampleRequest (some (GoError.New "no key"))
          = [(str "Internal Server Error", 500)]) :=
  ⟨⟨by decide,
      (DefaultErrorHandler_classification [] sampleRequest).1 GoError.ErrVerification
        (by decide)⟩,
    ⟨by decide,
      (DefaultErrorHandler_classification [] sampleRequest).2.2.1 (GoError.New "no key")
        (by decide)⟩⟩

/-! ## The middleware -/

theorem Handler_of_decode_error (m : Middleware) (h : HttpHandler) (w : ResponseWriter)
    (r : Request) (hd : base64Decode (r.Header.Get signatureHeader) = none) :
    m.Handler h w r
      = (m.ErrorHandler w r
            (some (GoError.wrap2 GoError.ErrVerification GoError.CorruptInputError)),
          [Event.errorHandler w r
            (GoError.wrap2 GoError.ErrVerification GoError.CorruptInputError)]) := by
  simp only [Middleware.Handler, Middleware.handler, hd]
  rfl

theorem Handler_of_verify_error (m : Middleware) (h : HttpHandler) (w : ResponseWriter)
    (r : Request) (sig : GoString) (valid : Bool) (e : GoError)
    (hd : base64Decode (r.Header.Get signatureHeader) = some sig)
    (hv : m.verifier.Verify (rebuiltMessage r) sig = (valid, some e)) :
    m.Handler h w r
      = (m.ErrorHandler w r (some e),
          [Event.verify (rebuiltMessage r) sig, Event.errorHandler w r e]) := by
  unfold rebuiltMessage at hv ⊢
  simp only [Middleware.Handler, Middleware.handler, hd, hv]
  rfl

theorem Handler_of_reject (m : Middleware) (h : HttpHandler) (w : ResponseWriter)
    (r : Request) (sig : GoString)
    (hd : base64Decode (r.Header.Get signatureHeader) = some sig)
    (hv : m.verifier.Verify (rebuiltMessage r) sig = (false, none)) :
    m.Handler h w r
      = (m.ErrorHandler w r (some GoError.ErrVerification),
          [Event.verify (rebuiltMessage r) sig,
            Event.errorHandler w r GoError.ErrVerification]) := by
  unfold rebuiltMessage at hv ⊢
  simp only [Middleware.Handler, Middleware.handler, hd, hv]
  rfl

theorem Handler_of_accept (m : Middleware) (h : HttpHandler) (w : ResponseWriter)
    (r : Request) (sig : GoString)
    (hd : base64Decode (r.Header.Get signatureHeader) = some sig)
    (hv : m.verifier.Verify (rebuiltMessage r) sig = (true, none)) :
    m.Handler h w r
      = (h w r, [Event.verify (rebuiltMessage r) sig, Event.serveHTTP w r]) := by
  unfold rebuiltMessage at hv ⊢
  simp only [Middleware.Handler, Middleware.handler, hd, hv]
  rfl

/-- C5: the decision of `Middleware.Handler`. (1) If the `X-Signature` value does not decode,
`Verify` is not called and the error handler receives an error that is `ErrVerification`
under `errors.Is`. (2) If `Verify` returns a non-nil error, the error handler receives that
error. (3) If `Verify` returns `(false, nil)`, the error handler receives `ErrVerification`.
(4) If `Verify` returns `(true, nil)`, the downstream handler is called once with the
original writer and request, and the error handler is not called. In (1)-(3) the downstream
handler is not called and the error handler is called once. -/
theorem Handler_decision (m : Middleware) (h : HttpHandler) (w : ResponseWriter)
    (r : Request) :
    (base64Decode (r.Header.Get signatureHeader) = none →
      ∃ e, errorsIs e GoError.ErrVerification = true
        ∧ m.Handler h w r = (m.ErrorHandler w r (some e), [Event.errorHandler w r e])
        ∧ verifyCount (m.Handler h w r).2 = 0
        ∧ servedCount (m.Handler h w r).2 = 0
        ∧ errorHandlerCount (m.Handler h w r).2 = 1)
    ∧ (∀ (sig : GoString) (valid : Bool) (e : GoError),
      base64Decode (r.Header.Get signatureHeader) = some sig →
      m.verifier.Verify (rebuiltMessage r) sig = (valid, some e) →
        m.Handler h w r
          = (m.ErrorHandler w r (some e),
              [Event.verify (rebuiltMessage r) sig, Event.errorHandler w r e])
        ∧ servedCount (m.Handler h w r).2 = 0
        ∧ errorHandlerCount (m.Handler h w r).2 = 1)
    ∧ (∀ sig : GoString,
      base64Decode (r.Header.Get signatureHeader) = some sig →
      m.verifier.Verify (rebuiltMessage r) sig = (false, none) →
        m.Handler h w r
          = (m.ErrorHandler w r (some GoError.ErrVerification),
              [Event.verify (rebuiltMessage r) sig,
                Event.errorHandler w r GoError.ErrVerification])
        ∧ servedCount (m.Handler h w r).2 = 0
        ∧ errorHandlerCount (m.Handler h w r).2 = 1)
    ∧ (∀ sig : GoString,
      base64Decode (r.Header.Get signatureHeader) = some sig →
      m.verifier.Verify (rebuiltMessage r) sig = (true, none) →
        m.Handler h w r
          = (h w r, [Event.verify (rebuiltMessage r) sig, Event.serveHTTP w r])
        ∧ servedCount (m.Handler h w r).2 = 1
        ∧ errorHandlerCount (m.Handler h w r).2 = 0) := by
  refine ⟨?_, ?_, ?_, ?_⟩
  · intro hd
    refine ⟨GoError.wrap2 GoError.ErrVerification GoError.CorruptInputError, by decide, ?_⟩
    rw [Handler_of_decode_error m h w r hd]
    simp [verifyCount, servedCount, errorHandlerCount, List.countP_cons]
  · intro sig valid e hd hv
    rw [Handler_of_verify_error m h w r sig valid e hd hv]
    simp [servedCount, errorHandlerCount, List.countP_cons]
  · intro sig hd hv
    rw [Handler_of_reject m h w r sig hd hv]
    simp [servedCount, errorHandlerCount, List.countP_cons]
  · intro sig hd hv
    rw [Handler_of_accept m h w r sig hd hv]
    simp [servedCount, errorHandlerCount, List.countP_cons]

/-- Witness of C5: one request for each of the four cases. -/
theorem Handler_decision_witness :
    (base64Decode ((sampleIncoming (str "*")).Header.Get signatureHeader) = none
      ∧ servedCount ((NewMiddleware stubVerifier).Handler sampleHandler []
          (sampleIncoming (str "*"))).2 = 0)
    ∧ (base64Decode ((sampleIncoming (str "AAAA")).Header.Get signatureHeader)
          = some [0, 0, 0]
      ∧ failingVerifier.Verify (rebuiltMessage (sampleIncoming (str "AAAA"))) [0, 0, 0]
          = (false, some (GoError.New "no key"))
      ∧ errorHandlerCount ((NewMiddleware failingVerifier).Handler sampleHandler []
          (sampleIncoming (str "AAAA"))).2 = 1)
    ∧ (stubVerifier.Verify (rebuiltMessage (sampleIncoming (str "AAAA"))) [0, 0, 0]
          = (false, none)
      ∧ errorHandlerCount ((NewMiddleware stubVerifier).Handler sampleHandler []
          (sampleIncoming (str "AAAA"))).2 = 1)
    ∧ (base64Decode ((sampleIncoming sampleValidSignature).Header.Get signatureHeader)
          = some (str "GETexample.com/ra=3&b=1&b=22024-01-01T00:00:00Z")
      ∧ stubVerifier.Verify (rebuiltMessage (sampleIncoming sampleValidSignature))
            (str "GETexample.com/ra=3&b=1&b=22024-01-01T00:00:00Z")
          = (true, none)
      ∧ (NewMiddleware stubVerifier).Handler sampleHandler []
            (sampleIncoming sampleValidSignature)
          = ([(str "ok", 200)],
              [Event.verify (rebuiltMessage (sampleIncoming sampleValidSignature))
                  (str "GETexample.com/ra=3&b=1&b=22024-01-01T00:00:00Z"),
                Event.serveHTTP [] (sampleIncoming sampleValidSignature)])) :=
  ⟨⟨by decide,
      Exists.elim
        ((Handler_decision (NewMiddleware stubVerifier) sampleHandler []
          (sampleIncoming (str "*"))).1 (by decide))
        (fun _ he => he.2.2.2.1)⟩,
    ⟨by decide, by decide,
      ((Handler_decision (NewMiddleware failingVerifier) sampleHandler []
        (sampleIncoming (str "AAAA"))).2.1 [0, 0, 0] false (GoError.New "no key")
        (by decide) (by decide)).2.2⟩,
    ⟨by decide,
      ((Handler_decision (NewMiddleware stubVerifier) sampleHandler []
        (sampleIncoming (str "AAAA"))).2.2.1 [0, 0, 0] (by decide) (by decide)).2.2⟩,
    ⟨by decide, by decide,
      ((Handler_decision (NewMiddleware stubVerifier) sampleHandler []
        (sampleIncoming sampleValidSignature)).2.2.2
        (str "GETexample.com/ra=3&b=1&b=22024-01-01T00:00:00Z") (by decide) (by decide)).1⟩⟩

/-! ## Client and server together -/

theorem timestampHeader_ne_signatureHeader : timestampHeader ≠ signatureHeader := by decide

theorem signedRequest_Get_timestamp (r : Request) (now sig : GoString)
    (hts : r.Header.Values timestampHeader = []) :
    (signedRequest r now sig).Header.Get timestampHeader = now := by
  simp only [signedRequest]
  rw [Header.Get_Add_other _ _ _ _ timestampHeader_ne_signatureHeader,
    Header.Get_Add_same _ _ _ hts]

theorem signedRequest_Get_signature (r : Request) (now sig : GoString)
    (hsig : r.Header.Values signatureHeader = []) :
    (signedRequest r now sig).Header.Get signatureHeader = base64Encode sig := by
  simp only [signedRequest]
  apply Header.Get_Add_same
  rw [Header.Values_Add_other _ _ _ _ (Ne.symm timestampHeader_ne_signatureHeader), hsig]

/-- A request with the method, host and query of `r`, the path of `r` as sent on the wire and
the timestamp `now` makes the server rebuild the message that the client signed. -/
theorem rebuiltMessage_eq_signData (r r2 : Request) (now : GoString)
    (hm : r2.Method = r.Method) (hh : r2.Host = r.Host) (hq : r2.Query = r.Query)
    (hp : r2.EscapedPath = if r.EscapedPath = [] then str "/" else r.EscapedPath)
    (hts : r2.Header.Get timestampHeader = now) :
    rebuiltMessage r2 = signData r now := by
  simp only [rebuiltMessage, signData, hm, hh, hq, hp, hts]

/-- C4: end-to-end acceptance. With a signer that never fails and a verifier that accepts
every signature of that signer, a request that carried neither signature header before,
forwarded by `Transport.RoundTrip` and delivered to `Middleware.Handler` with the same
method, host, query and the two signature headers, and with the path as sent on the wire
(`/` for the empty path), is served: the downstream handler is called once and the error
handler is not called. -/
theorem end_to_end_accepted (s : Signer) (v : Verifier)
    (hs : ∀ m, (s.Sign m).2 = none)
    (hv : ∀ m, v.Verify m (s.Sign m).1 = (true, none))
    (base : Request → Option Response × Option GoError) (r : Request) (now : GoString)
    (hsig : r.Header.Values signatureHeader = [])
    (hts : r.Header.Values timestampHeader = [])
    (rf : Request)
    (hfwd : Event.baseRoundTrip rf ∈ (Transport.RoundTrip { Base := base, signer := s } r now).2)
    (errorHandler : ResponseWriter → Request → Option GoError → ResponseWriter)
    (h : HttpHandler) (w : ResponseWriter) (r2 : Request)
    (hm : r2.Method = rf.Method) (hh : r2.Host = rf.Host) (hq : r2.Query = rf.Query)
    (hp : r2.EscapedPath = if rf.EscapedPath = [] then str "/" else rf.EscapedPath)
    (h1 : r2.Header.Get signatureHeader = rf.Header.Get signatureHeader)
    (h2 : r2.Header.Get timestampHeader = rf.Header.Get timestampHeader) :
    servedCount (Middleware.Handler { ErrorHandler := errorHandler, verifier := v } h w r2).2 = 1
    ∧ errorHandlerCount
        (Middleware.Handler { ErrorHandler := errorHandler, verifier := v } h w r2).2 = 0
    ∧ (Middleware.Handler { ErrorHandler := errorHandler, verifier := v } h w r2).1
        = h w r2 := by
  have hsign : s.Sign (signData r now) = ((s.Sign (signData r now)).1, none) :=
    Prod.ext rfl (hs _)
  have hrt := RoundTrip_of_ok { Base := base, signer := s } r now _ hsign
  rw [hrt] at hfwd
  simp only [List.mem_cons, List.mem_singleton, Event.baseRoundTrip.injEq, reduceCtorEq,
    false_or, List.not_mem_nil, or_false] at hfwd
  subst hfwd
  rw [signedRequest_Get_signature r now _ hsig] at h1
  rw [signedRequest_Get_timestamp r now _ hts] at h2
  have hmsg : rebuiltMessage r2 = signData r now :=
    rebuiltMessage_eq_signData r r2 now hm hh hq hp h2
  have hd : base64Decode (r2.Header.Get signatureHeader) = some (s.Sign (signData r now)).1 := by
    rw [h1, base64Decode_base64Encode]
  have hacc := Handler_of_accept { ErrorHandler := errorHandler, verifier := v } h w r2 _ hd
    (by rw [hmsg]; exact hv _)
  rw [hacc]
  simp [servedCount, errorHandlerCount, List.countP_cons]

/-- Witness of C4: the stubs of the test, on a request with the empty path, which the server
receives with the path `/`. -/
theorem end_to_end_accepted_witness :
    Event.baseRoundTrip (signedRequest sampleRootRequest sampleNow
        (signData sampleRootRequest sampleNow))
      ∈ (Transport.RoundTrip { Base := sampleBase, signer := stubSigner }
          sampleRootRequest sampleNow).2
    ∧ servedCount ((NewMiddleware stubVerifier).Handler sampleHandler []
        { signedRequest sampleRootRequest sampleNow (signData sampleRootRequest sampleNow) with
          EscapedPath := str "/" }).2 = 1 :=
  ⟨by decide,
    (end_to_end_accepted stubSigner stubVerifier (fun _ => rfl)
      (fun m => by simp [stubVerifier, stubSigner])
      sampleBase sampleRootRequest sampleNow (by decide) (by decide)
      (signedRequest sampleRootRequest sampleNow (signData sampleRootRequest sampleNow))
      (by decide) DefaultErrorHandler sampleHandler []
      { signedRequest sampleRootRequest sampleNow (signData sampleRootRequest sampleNow) with
        EscapedPath := str "/" }
      rfl rfl rfl (by decide) rfl rfl).1⟩

/-! ## Tampering -/

/-- C8, as amended: let `Sign` be injective, and let `Verify(m, s)` be
`(true, nil)` exactly when `s = Sign(m)` and `(false, nil)` otherwise. Let `r2` carry the
timestamp and the signature that `Transport.sign` produced for `r`, have the query of `r`,
differ from `r` in its method, its host or its escaped path, and have a non-empty escaped
path. If the method, host and escaped path of `r2` concatenate to a string other than the
method, host and path (`/` for the empty path) of `r` concatenated, then
`Middleware.Handler` does not call the downstream handler for `r2` and reports
`ErrVerification`, which the default policy answers with 401. -/
theorem tampering_detected (s : Signer) (v : Verifier)
    (hinj : ∀ m1 m2, (s.Sign m1).1 = (s.Sign m2).1 → m1 = m2)
    (hv : ∀ m sg, v.Verify m sg = (decide (sg = (s.Sign m).1), none))
    (r : Request) (now : GoString) (r2 : Request)
    (hts : r2.Header.Get timestampHeader = now)
    (hsig : r2.Header.Get signatureHeader = base64Encode (s.Sign (signData r now)).1)
    (hq : r2.Query = r.Query)
    (_hchanged : r2.Method ≠ r.Method ∨ r2.Host ≠ r.Host ∨ r2.EscapedPath ≠ r.EscapedPath)
    (_hpath : r2.EscapedPath ≠ [])
    (hdiff : r2.Method ++ r2.Host ++ r2.EscapedPath
      ≠ r.Method ++ r.Host ++ (if r.EscapedPath = [] then str "/" else r.EscapedPath))
    (errorHandler : ResponseWriter → Request → Option GoError → ResponseWriter)
    (h : HttpHandler) (w : ResponseWriter) :
    Middleware.Handler { ErrorHandler := errorHandler, verifier := v } h w r2
      = (errorHandler w r2 (some GoError.ErrVerification),
          [Event.verify (rebuiltMessage r2) (s.Sign (signData r now)).1,
            Event.errorHandler w r2 GoError.ErrVerification])
    ∧ servedCount (Middleware.Handler { ErrorHandler := errorHandler, verifier := v } h w r2).2
        = 0
    ∧ DefaultErrorHandler w r2 (some GoError.ErrVerification)
        = w ++ [(str "Unauthorized", 401)] := by
  have hd : base64Decode (r2.Header.Get signatureHeader) = some (s.Sign (signData r now)).1 := by
    rw [hsig, base64Decode_base64Encode]
  have hne : rebuiltMessage r2 ≠ signData r now := by
    intro heq
    apply hdiff
    simp only [rebuiltMessage, signData, hq, hts] at heq
    exact List.append_cancel_right (List.append_cancel_right heq)
  have hrej : v.Verify (rebuiltMessage r2) (s.Sign (signData r now)).1 = (false, none) := by
    rw [hv]
    have : ¬ (s.Sign (signData r now)).1 = (s.Sign (rebuiltMessage r2)).1 :=
      fun he => hne (hinj _ _ he).symm
    simp [this]
  have hrj := Handler_of_reject { ErrorHandler := errorHandler, verifier := v } h w r2 _ hd hrej
  rw [hrj]
  refine ⟨rfl, by simp [servedCount, List.countP_cons], ?_⟩
  exact DefaultErrorHandler_of_is w r2 GoError.ErrVerification (by decide)

/-- Witness of C8 as amended: the signed sample request, replayed with the path `/other`. -/
theorem tampering_detected_witness :
    ({ sampleSigned with EscapedPath := str "/other" } : Request).EscapedPath
      ≠ sampleRootRequest.EscapedPath
    ∧ ({ sampleSigned with EscapedPath := str "/other" } : Request).EscapedPath ≠ []
    ∧ ({ sampleSigned with EscapedPath := str "/other" } : Request).Method
        ++ ({ sampleSigned with EscapedPath := str "/other" } : Request).Host
        ++ ({ sampleSigned with EscapedPath := str "/other" } : Request).EscapedPath
      ≠ sampleRootRequest.Method ++ sampleRootRequest.Host ++ str "/"
    ∧ servedCount ((NewMiddleware stubVerifier).Handler sampleHandler []
        { sampleSigned with EscapedPath := str "/other" }).2 = 0 :=
  ⟨by decide, by decide, by decide,
    (tampering_detected stubSigner stubVerifier (fun _ _ he => he)
      (fun m sg => by simp [stubVerifier, stubSigner, eq_comm])
      sampleRootRequest sampleNow { sampleSigned with EscapedPath := str "/other" }
      (by decide) (by decide) rfl (Or.inr (Or.inr (by decide))) (by decide) (by decide)
      DefaultErrorHandler sampleHandler []).2.1⟩

/-- C8 as stated fails. The stubs of the test meet its assumptions; the request
`GET example.com` with the empty path is signed; a request with the same headers and query
that differs in its escaped path (`/`), and another that differs in its method and its host
(`GETe`, `xample.com`, path `/`), are both served by the downstream handler. -/
theorem tampering_claim_counterexample :
    (∀ m1 m2, (stubSigner.Sign m1).1 = (stubSigner.Sign m2).1 → m1 = m2)
    ∧ (∀ m sg, stubVerifier.Verify m sg = (decide (sg = (stubSigner.Sign m).1), none))
    ∧ (Transport.sign { Base := sampleBase, signer := stubSigner } sampleRootRequest sampleNow).1
        = sampleSigned
    ∧ ({ sampleSigned with EscapedPath := str "/" } : Request).EscapedPath
        ≠ sampleRootRequest.EscapedPath
    ∧ (NewMiddleware stubVerifier).Handler sampleHandler []
          { sampleSigned with EscapedPath := str "/" }
        = ([(str "ok", 200)],
            [Event.verify (str "GETexample.com/2024-01-01T00:00:00Z")
                (str "GETexample.com/2024-01-01T00:00:00Z"),
              Event.serveHTTP [] { sampleSigned with EscapedPath := str "/" }])
    ∧ str "GETe" ≠ sampleRootRequest.Method
    ∧ str "xample.com" ≠ sampleRootRequest.Host
    ∧ servedCount ((NewMiddleware stubVerifier).Handler sampleHandler []
          { sampleSigned with
            Method := str "GETe", Host := str "xample.com", EscapedPath := str "/" }).2
        = 1 := by
  refine ⟨fun _ _ he => he, ?_, by decide, by decide, by decide, by decide, by decide,
    by decide⟩
  intro m sg
  simp [stubVerifier, stubSigner, eq_comm]

/-! ## Where the code departs from the specification -/

/-- C3 fails on the code for the empty path. For `GET example.com` with the empty path and no
query, `Transport.sign` signs `GETexample.com/` followed by the timestamp, while
`Middleware.Handler`, given the same components and that timestamp, rebuilds
`GETexample.com` followed by the timestamp: it does not replace the empty path by `/`, and
it rejects the request that was signed with the same components. -/
theorem empty_path_mismatch :
    (Transport.sign { Base := sampleBase, signer := stubSigner } sampleRootRequest sampleNow)
      = (sampleSigned, none, [Event.sign (str "GETexample.com/2024-01-01T00:00:00Z")])
    ∧ sampleSigned.Method = sampleRootRequest.Method
    ∧ sampleSigned.Host = sampleRootRequest.Host
    ∧ sampleSigned.EscapedPath = sampleRootRequest.EscapedPath
    ∧ sampleSigned.Query = sampleRootRequest.Query
    ∧ sampleSigned.Header.Get timestampHeader = sampleNow
    ∧ (NewMiddleware stubVerifier).Handler sampleHandler [] sampleSigned
        = ([(str "Unauthorized", 401)],
            [Event.verify (str "GETexample.com2024-01-01T00:00:00Z")
                (str "GETexample.com/2024-01-01T00:00:00Z"),
              Event.errorHandler [] sampleSigned GoError.ErrVerification]) := by
  refine ⟨by decide, rfl, rfl, rfl, rfl, by decide, by decide⟩

/-- C7 fails on the code for the two RSA backends. With a library that rejects the
signature, the request with a decodable `X-Signature` is answered 500 by the default policy
under `PKCSVerifier` and under `PSSVerifier`, and so is the request that carries neither
header, because their `Verify` returns the library's error; under the HMAC, ECDSA and
Ed25519 backends, whose `Verify` returns `(false, nil)`, the same requests are answered
401. An undecodable `X-Signature` is answered 401 under every backend. -/
theorem rsa_rejection_is_internal_error :
    ((NewMiddleware { Verify := Rsa.PKCSVerifier.Verify rejectingLib { pub := [], hash := 5 } }
        ).Handler sampleHandler [] (sampleIncoming (str "AAAA"))).1
      = [(str "Internal Server Error", 500)]
    ∧ ((NewMiddleware
          { Verify := Rsa.PSSVerifier.Verify rejectingLib
              { pub := [], opts := { SaltLength := 0, Hash := 5 } } }
        ).Handler sampleHandler [] (sampleIncoming (str "AAAA"))).1
      = [(str "Internal Server Error", 500)]
    ∧ ((NewMiddleware { Verify := Rsa.PKCSVerifier.Verify rejectingLib { pub := [], hash := 5 } }
        ).Handler sampleHandler [] sampleRequest).1
      = [(str "Internal Server Error", 500)]
    ∧ ((NewMiddleware { Verify := Hmac.HMAC.Verify rejectingLib { key := [], hash := 5 } }
        ).Handler sampleHandler [] (sampleIncoming (str "AAAA"))).1
      = [(str "Unauthorized", 401)]
    ∧ ((NewMiddleware { Verify := Ecdsa.Verifier.Verify rejectingLib { pub := [], hash := 5 } }
        ).Handler sampleHandler [] (sampleIncoming (str "AAAA"))).1
      = [(str "Unauthorized", 401)]
    ∧ ((NewMiddleware { Verify := Ed25519.Verifier.Verify rejectingLib { pub := [] } }
        ).Handler sampleHandler [] (sampleIncoming (str "AAAA"))).1
      = [(str "Unauthorized", 401)]
    ∧ ((NewMiddleware { Verify := Rsa.PKCSVerifier.Verify rejectingLib { pub := [], hash := 5 } }
        ).Handler sampleHandler [] (sampleIncoming (str "*"))).1
      = [(str "Unauthorized", 401)] := by
  refine ⟨by decide, by decide, by decide, by decide, by decide, by decide, by decide⟩

/-! ## The HMAC backend -/

theorem set_ne_self {α : Type} (l : List α) (i : Nat) (b : α) (hi : i < l.length)
    (hb : l[i]? ≠ some b) : l.set i b ≠ l := by
  intro h
  apply hb
  have h2 : (l.set i b)[i]? = some b := List.getElem?_set_self hi
  rw [h] at h2
  exact h2

/-- C11: the HMAC backend, with the keyed hash a function `hmacSum hash key m` of the
library. For every key and every available hash `New` returns an `HMAC`; its `Sign(m)`
returns the digest of `m` and a nil error; its `Verify(m, s)` returns `(true, nil)` when `s`
is the digest of `m` and `(false, nil)` otherwise; so `Verify(m, Sign(m))` is true, and
`Verify(m, s2)` is false for every `s2` that differs from `Sign(m)` in one byte; neither
operation returns an error. -/
theorem hmac_sign_verify (lib : CryptoLib) (available : Nat → Bool) (key : GoString)
    (hash : Nat) (havail : available hash = true) :
    Hmac.New available key hash = (some { key := key, hash := hash }, none)
    ∧ (∀ m : GoString,
      Hmac.HMAC.Sign lib { key := key, hash := hash } m = (lib.hmacSum hash key m, none))
    ∧ (∀ m s : GoString, s = lib.hmacSum hash key m →
      Hmac.HMAC.Verify lib { key := key, hash := hash } m s = (true, none))
    ∧ (∀ m s : GoString, s ≠ lib.hmacSum hash key m →
      Hmac.HMAC.Verify lib { key := key, hash := hash } m s = (false, none))
    ∧ (∀ m : GoString,
      Hmac.HMAC.Verify lib { key := key, hash := hash } m
          (Hmac.HMAC.Sign lib { key := key, hash := hash } m).1
        = (true, none))
    ∧ (∀ (m : GoString) (i : Nat) (b : Byte),
      i < (Hmac.HMAC.Sign lib { key := key, hash := hash } m).1.length →
      (Hmac.HMAC.Sign lib { key := key, hash := hash } m).1[i]? ≠ some b →
      Hmac.HMAC.Verify lib { key := key, hash := hash } m
          ((Hmac.HMAC.Sign lib { key := key, hash := hash } m).1.set i b)
        = (false, none))
    ∧ (∀ m s : GoString,
      (Hmac.HMAC.Sign lib { key := key, hash := hash } m).2 = none
      ∧ (Hmac.HMAC.Verify lib { key := key, hash := hash } m s).2 = none) := by
  refine ⟨?_, fun _ => rfl, ?_, ?_, ?_, ?_, fun _ _ => ⟨rfl, rfl⟩⟩
  · simp [Hmac.New, havail]
  · intro m s hs
    simp [Hmac.HMAC.Verify, Hmac.HMAC.digest, hs]
  · intro m s hs
    simp [Hmac.HMAC.Verify, Hmac.HMAC.digest, hs]
  · intro m
    simp [Hmac.HMAC.Verify, Hmac.HMAC.Sign]
  · intro m i b hi hb
    have hne := set_ne_self _ i b hi hb
    simp only [Hmac.HMAC.Sign] at hne
    simp [Hmac.HMAC.Verify, Hmac.HMAC.Sign, hne]

/-- Witness of C11: the key `secret` and the message `test` of the test, with a library whose
digest is the key followed by the message; the first byte of the signature is changed. -/
theorem hmac_sign_verify_witness :
    Hmac.New (fun _ => true) (str "secret") 5
        = (some { key := str "secret", hash := 5 }, none)
    ∧ Hmac.HMAC.Verify sampleLib { key := str "secret", hash := 5 } (str "test")
          (Hmac.HMAC.Sign sampleLib { key := str "secret", hash := 5 } (str "test")).1
        = (true, none)
    ∧ (0 < (Hmac.HMAC.Sign sampleLib { key := str "secret", hash := 5 } (str "test")).1.length
      ∧ (Hmac.HMAC.Sign sampleLib { key := str "secret", hash := 5 } (str "test")).1[0]?
          ≠ some (ch 'x')
      ∧ Hmac.HMAC.Verify sampleLib { key := str "secret", hash := 5 } (str "test")
            ((Hmac.HMAC.Sign sampleLib { key := str "secret", hash := 5 } (str "test")).1.set
              0 (ch 'x'))
          = (false, none)) :=
  have h := hmac_sign_verify sampleLib (fun _ => true) (str "secret") 5 rfl
  ⟨h.1, h.2.2.2.2.1 (str "test"),
    by decide, by decide, h.2.2.2.2.2.1 (str "test") 0 (ch 'x') (by decide) (by decide)⟩

/-! ## The headers of the forwarded request -/

theorem signedRequest_Values_timestamp (r : Request) (now sig : GoString) :
    (signedRequest r now sig).Header.Values timestampHeader
      = r.Header.Values timestampHeader ++ [now] := by
  simp only [signedRequest]
  rw [Header.Values_Add_other _ _ _ _ timestampHeader_ne_signatureHeader,
    Header.Values_Add_same]

theorem signedRequest_Values_signature (r : Request) (now sig : GoString) :
    (signedRequest r now sig).Header.Values signatureHeader
      = r.Header.Values signatureHeader ++ [base64Encode sig] := by
  simp only [signedRequest]
  rw [Header.Values_Add_same,
    Header.Values_Add_other _ _ _ _ (Ne.symm timestampHeader_ne_signatureHeader)]

theorem forwarded_eq_signedRequest (t : Transport) (r : Request) (now sig : GoString)
    (hok : t.signer.Sign (signData r now) = (sig, none)) (rf : Request)
    (hfwd : Event.baseRoundTrip rf ∈ (t.RoundTrip r now).2) :
    rf = signedRequest r now sig := by
  rw [RoundTrip_of_ok t r now sig hok] at hfwd
  simpa using hfwd

/-- C12, as amended: when `Sign` succeeds with the bytes `sig`, `Transport.RoundTrip` signs
the message ending in the timestamp and forwards a request whose `X-Signature-Timestamp`
values are those of the original followed by that timestamp, and whose `X-Signature` values
are those of the original followed by the unpadded base64url encoding of `sig`. When the
original carried no value for a header, `Header.Get` reads the new value of it. Decoding the
encoding of `sig` returns `sig`. -/
theorem forwarded_headers (t : Transport) (r : Request) (now sig : GoString)
    (hok : t.signer.Sign (signData r now) = (sig, none)) (rf : Request)
    (hfwd : Event.baseRoundTrip rf ∈ (t.RoundTrip r now).2) :
    (t.RoundTrip r now).2 = [Event.sign (signData r now), Event.baseRoundTrip rf]
    ∧ signData r now
        = r.Method ++ r.Host ++ (if r.EscapedPath = [] then str "/" else r.EscapedPath)
          ++ Encode r.Query ++ now
    ∧ rf.Header.Values timestampHeader = r.Header.Values timestampHeader ++ [now]
    ∧ rf.Header.Values signatureHeader
        = r.Header.Values signatureHeader ++ [base64Encode sig]
    ∧ (r.Header.Values timestampHeader = [] → rf.Header.Get timestampHeader = now)
    ∧ (r.Header.Values signatureHeader = [] →
        rf.Header.Get signatureHeader = base64Encode sig
        ∧ base64Decode (rf.Header.Get signatureHeader) = some sig)
    ∧ base64Decode (base64Encode sig) = some sig := by
  have hrf := forwarded_eq_signedRequest t r now sig hok rf hfwd
  subst hrf
  refine ⟨congrArg Prod.snd (RoundTrip_of_ok t r now sig hok), rfl,
    signedRequest_Values_timestamp r now sig,
    signedRequest_Values_signature r now sig, signedRequest_Get_timestamp r now sig, ?_,
    base64Decode_base64Encode sig⟩
  intro hs
  rw [signedRequest_Get_signature r now sig hs]
  exact ⟨rfl, base64Decode_base64Encode sig⟩

/-- Witness of C12 as amended: the sample request, which carries no header, signed by the
stub signer. -/
theorem forwarded_headers_witness :
    stubSigner.Sign (signData sampleRequest sampleNow) = (signData sampleRequest sampleNow, none)
    ∧ Event.baseRoundTrip
          (signedRequest sampleRequest sampleNow (signData sampleRequest sampleNow))
        ∈ (Transport.RoundTrip { Base := sampleBase, signer := stubSigner }
            sampleRequest sampleNow).2
    ∧ sampleRequest.Header.Values timestampHeader = []
    ∧ sampleRequest.Header.Values signatureHeader = []
    ∧ (signedRequest sampleRequest sampleNow (signData sampleRequest sampleNow)).Header.Get
          timestampHeader
        = sampleNow
    ∧ base64Decode
          ((signedRequest sampleRequest sampleNow (signData sampleRequest sampleNow)).Header.Get
            signatureHeader)
        = some (signData sampleRequest sampleNow) :=
  have h := forwarded_headers { Base := sampleBase, signer := stubSigner } sampleRequest
    sampleNow (signData sampleRequest sampleNow) rfl
    (signedRequest sampleRequest sampleNow (signData sampleRequest sampleNow)) (by decide)
  ⟨rfl, by decide, by decide, by decide, h.2.2.2.2.1 (by decide),
    (h.2.2.2.2.2.1 (by decide)).2⟩

/-- C12 as stated fails. The sample request that already carries the `X-Signature` value
`old` is signed by the stub signer, `Sign` succeeding; in the request forwarded to the base
round tripper `Header.Get` reads `old` for `X-Signature`, which is not the encoding of the
bytes returned by `Sign` and does not decode to them. -/
theorem forwarded_headers_counterexample :
    stubSigner.Sign (signData sampleResigned sampleNow)
      = (str "GETexample.com/ra=3&b=1&b=22024-01-01T00:00:00Z", none)
    ∧ (Transport.RoundTrip { Base := sampleBase, signer := stubSigner }
          sampleResigned sampleNow).2
        = [Event.sign (str "GETexample.com/ra=3&b=1&b=22024-01-01T00:00:00Z"),
            Event.baseRoundTrip
              { sampleRequest with
                Header :=
                  [(signatureHeader,
                      [str "old",
                        base64Encode (str "GETexample.com/ra=3&b=1&b=22024-01-01T00:00:00Z")]),
                    (timestampHeader, [sampleNow])] }]
    ∧ Header.Get
          [(signatureHeader,
              [str "old", base64Encode (str "GETexample.com/ra=3&b=1&b=22024-01-01T00:00:00Z")]),
            (timestampHeader, [sampleNow])]
          signatureHeader
        = str "old"
    ∧ str "old" ≠ base64Encode (str "GETexample.com/ra=3&b=1&b=22024-01-01T00:00:00Z")
    ∧ base64Decode (str "old")
        ≠ some (str "GETexample.com/ra=3&b=1&b=22024-01-01T00:00:00Z") := by
  refine ⟨by decide, by decide, by decide, by decide, by decide⟩

end Httpsign
